import Mathlib

/-! Shallow embedding of the calendar-normalization and reassignment engine
(`normalizer.py`, `reassignment.py`) of the Hack-H-er413 repository, together
with theorems settling the specification claims about it.

Modelling conventions:
- Python strings are `List Char` (`Str`); `str.lower()` is `Char.toLower` mapped.
- Python dict access `d.get(k)` / `d.get(k, v)` is an `Option` field read with
  `Option.getD`; a key that is present but empty is `some []`, an absent key is
  `none`.
- Python integers are exact (`Int`/`Nat`); `round` (round half to even) is
  modelled on the exact rational value of the division, ignoring IEEE-754
  double rounding of the intermediate float.
- Identifiers (`emp["id"]`, `task["assigned_to_id"]`, ...) are modelled as
  strings after the Python `str(...)` coercion, which the source applies at
  every comparison site.
- File I/O (the `path` arguments and `json.load`) is modelled by passing the
  decoded payload directly; `json.dump` by returning the new store value.
-/

abbrev Str := List Char

/-- Python `x or y` for strings: `y` when `x` is empty (falsy), else `x`. -/
def pyOr (a b : Str) : Str := if a = [] then b else a

/-- Python `d.get(k) or e` where `d.get(k)` may be `None`: falls through to `e`
on a missing key and on a present-but-empty string. -/
def pyOrOpt (a : Option Str) (b : Str) : Str :=
  match a with
  | some s => if s = [] then b else s
  | none => b

/-- Python `str.strip()` restricted to the ASCII whitespace the feeds contain. -/
def pyStrip (s : Str) : Str :=
  ((s.dropWhile Char.isWhitespace).reverse.dropWhile Char.isWhitespace).reverse

/-- Value of one decimal digit character, `none` on a non-digit. -/
def digitVal (c : Char) : Option Nat :=
  if c.isDigit then some (c.toNat - 48) else none

/-- Decimal reading of a nonempty all-digit string. -/
def digitsToNat (l : Str) : Option Nat :=
  if l = [] then none
  else l.foldl (fun acc c =>
    match acc, digitVal c with
    | some n, some v => some (n * 10 + v)
    | _, _ => none) (some 0)

/-- Python `int(s)`: strips whitespace, one optional sign, then decimal digits.
(The underscore digit-grouping Python also accepts never occurs in the feeds.) -/
def pyInt (s : Str) : Option Int :=
  match pyStrip s with
  | [] => none
  | c :: rest =>
    if c = '-' then (digitsToNat rest).map (fun n => -(n : Int))
    else if c = '+' then (digitsToNat rest).map (fun n => (n : Int))
    else (digitsToNat (c :: rest)).map (fun n => (n : Int))

/-- Whether `pre` is an initial segment of `s` (helper for substring search). -/
def startsWithL : Str → Str → Bool
  | [], _ => true
  | _ :: _, [] => false
  | a :: as, b :: bs => a == b && startsWithL as bs

/-- Python `needle in hay` substring containment. -/
def substringIn (needle : Str) : Str → Bool
  | [] => needle == []
  | c :: rest => startsWithL needle (c :: rest) || substringIn needle rest

/-- Python `str.lower()` (ASCII case fold; the keyword set is ASCII). -/
def lowerStr (s : Str) : Str := s.map Char.toLower

/-- Python `round` at integer precision: round half to even, on the exact
rational `num / den` (`den > 0`). -/
def pyRoundDiv (num den : Nat) : Nat :=
  let q := num / den
  let r := num % den
  if 2 * r < den then q
  else if 2 * r > den then q + 1
  else if q % 2 = 0 then q else q + 1

/-- Lexicographic `≤` on strings, as Python compares strings (by code point). -/
def strLe : Str → Str → Bool
  | [], _ => true
  | _ :: _, [] => false
  | a :: as, b :: bs => a.toNat < b.toNat || (a == b && strLe as bs)

-- ── Dates and datetimes ─────────────────────────────────────────────────────

/-- A `datetime.date` value. -/
structure PyDate where
  year : Int
  month : Int
  day : Int
deriving DecidableEq, Repr

/-- A naive/UTC `datetime.datetime` value (microseconds never occur in the
feeds and are not modelled). -/
structure PyDateTime where
  year : Int
  month : Int
  day : Int
  hour : Int
  minute : Int
  second : Int
deriving DecidableEq, Repr

/-- The `datetime.date()` projection. -/
def PyDateTime.date (t : PyDateTime) : PyDate := ⟨t.year, t.month, t.day⟩

/-- Python `date.__le__`: lexicographic on (year, month, day). -/
def PyDate.ble (a b : PyDate) : Bool :=
  decide (a.year < b.year ∨ (a.year = b.year ∧
    (a.month < b.month ∨ (a.month = b.month ∧ a.day ≤ b.day))))

/-- Python `date.__lt__`: lexicographic on (year, month, day). -/
def PyDate.blt (a b : PyDate) : Bool :=
  decide (a.year < b.year ∨ (a.year = b.year ∧
    (a.month < b.month ∨ (a.month = b.month ∧ a.day < b.day))))

/-- Python `datetime.__le__` of two UTC instants (field-lexicographic). -/
def dtBle (a b : PyDateTime) : Bool :=
  a.date.blt b.date ||
  (a.date == b.date && decide (a.hour < b.hour ∨ (a.hour = b.hour ∧
    (a.minute < b.minute ∨ (a.minute = b.minute ∧ a.second ≤ b.second)))))

/-- Python `datetime.__lt__` of two UTC instants (field-lexicographic). -/
def dtBlt (a b : PyDateTime) : Bool :=
  a.date.blt b.date ||
  (a.date == b.date && decide (a.hour < b.hour ∨ (a.hour = b.hour ∧
    (a.minute < b.minute ∨ (a.minute = b.minute ∧ a.second < b.second)))))

/-- Gregorian leap-year rule, as `datetime` implements it. -/
def isLeap (y : Int) : Bool := y % 4 == 0 && (y % 100 != 0 || y % 400 == 0)

/-- Days in a month of a given year. -/
def daysInMonth (y m : Int) : Int :=
  if m = 2 then (if isLeap y then 29 else 28)
  else if m = 4 ∨ m = 6 ∨ m = 9 ∨ m = 11 then 30
  else 31

/-- Days since the Unix epoch of a civil date (standard civil-calendar
algorithm; supports the timezone conversion of `datetime`). -/
def daysFromCivil (y m d : Int) : Int :=
  let yy := if m ≤ 2 then y - 1 else y
  let era := yy.fdiv 400
  let yoe := yy - era * 400
  let doy := (153 * (m + (if m > 2 then -3 else 9)) + 2) / 5 + d - 1
  let doe := yoe * 365 + yoe / 4 - yoe / 100 + doy
  era * 146097 + doe - 719468

/-- Civil date of a days-since-epoch count (inverse of `daysFromCivil`). -/
def civilFromDays (z0 : Int) : Int × Int × Int :=
  let z := z0 + 719468
  let era := z.fdiv 146097
  let doe := z - era * 146097
  let yoe := (doe - doe / 1460 + doe / 36524 - doe / 146096) / 365
  let y := yoe + era * 400
  let doy := doe - (365 * yoe + yoe / 4 - yoe / 100)
  let mp := (5 * doy + 2) / 153
  let d := doy - (153 * mp + 2) / 5 + 1
  let m := mp + (if mp < 10 then 3 else -9)
  (y + (if m ≤ 2 then 1 else 0), m, d)

/-- Seconds since the Unix epoch of a datetime value. -/
def toEpochSecs (t : PyDateTime) : Int :=
  daysFromCivil t.year t.month t.day * 86400 +
    t.hour * 3600 + t.minute * 60 + t.second

/-- Datetime value of a seconds-since-epoch count. -/
def ofEpochSecs (n : Int) : PyDateTime :=
  let days := n.fdiv 86400
  let rem := n.fmod 86400
  let c := civilFromDays days
  ⟨c.1, c.2.1, c.2.2, rem.fdiv 3600, (rem.fmod 3600).fdiv 60, rem.fmod 60⟩

/-- Shift a datetime by a number of minutes, with full calendar rollover
(`timedelta` addition). -/
def shiftMinutes (t : PyDateTime) (deltaMin : Int) : PyDateTime :=
  ofEpochSecs (toEpochSecs t + deltaMin * 60)

/-- Models `aware.astimezone(timezone.utc)` for a naive datetime stamped with a fixed
offset of `offMin` minutes: subtract the offset. -/
def toUTC (t : PyDateTime) (offMin : Int) : PyDateTime :=
  shiftMinutes t (-offMin)

/-- The range check `datetime.date(y, m, d)` performs. -/
def validDate (y m d : Int) : Bool :=
  1 ≤ y && y ≤ 9999 && 1 ≤ m && m ≤ 12 && 1 ≤ d && d ≤ daysInMonth y m

/-- The range check `datetime.time(h, mi, s)` performs. -/
def validTime (h mi s : Int) : Bool :=
  0 ≤ h && h ≤ 23 && 0 ≤ mi && mi ≤ 59 && 0 ≤ s && s ≤ 59

/-- Models `datetime.datetime(y, m, d, h, mi, s)`: `none` is the `ValueError`
raised on out-of-range components. -/
def mkDatetime (y m d h mi s : Int) : Option PyDateTime :=
  if validDate y m d && validTime h mi s then some ⟨y, m, d, h, mi, s⟩ else none

-- ── Time parser (`normalizer._parse_dt_to_utc` and its helpers) ─────────────

/-- Embeds `normalizer._TZ_OFFSETS` / `_ms_tz_to_offset`: fixed hour offsets for the
named timezones, `0` (UTC) for anything unknown. -/
def msTzToOffsetHours (tz : Str) : Int :=
  if tz = ("Pacific Standard Time".data) then -8
  else if tz = ("Pacific Daylight Time".data) then -7
  else if tz = ("Mountain Standard Time".data) then -7
  else if tz = ("Mountain Daylight Time".data) then -6
  else if tz = ("Central Standard Time".data) then -6
  else if tz = ("Central Daylight Time".data) then -5
  else if tz = ("Eastern Standard Time".data) then -5
  else if tz = ("Eastern Daylight Time".data) then -4
  else if tz = ("UTC".data) then 0
  else 0

/-- Two decimal digit characters as a number. -/
def parse2 (a b : Char) : Option Nat :=
  match digitVal a, digitVal b with
  | some x, some y => some (x * 10 + y)
  | _, _ => none

/-- Four decimal digit characters as a number. -/
def parse4 (a b c d : Char) : Option Nat :=
  match digitVal a, digitVal b, digitVal c, digitVal d with
  | some w, some x, some y, some z => some (((w * 10 + x) * 10 + y) * 10 + z)
  | _, _, _, _ => none

/-- Time-of-day part `HH:MM` or `HH:MM:SS` of an ISO string. -/
def parseTimePart : Str → Option (Int × Int × Int)
  | [h1, h2, ':', m1, m2] =>
    match parse2 h1 h2, parse2 m1 m2 with
    | some h, some mi => some ((h : Int), (mi : Int), 0)
    | _, _ => none
  | [h1, h2, ':', m1, m2, ':', s1, s2] =>
    match parse2 h1 h2, parse2 m1 m2, parse2 s1 s2 with
    | some h, some mi, some s => some ((h : Int), (mi : Int), (s : Int))
    | _, _, _ => none
  | _ => none

/-- Models `datetime.fromisoformat` for the shapes the feeds produce:
`YYYY-MM-DD` and `YYYY-MM-DD<sep>HH:MM[:SS]` (any one-character separator,
as before Python 3.11). Fractional seconds and embedded offsets never reach
this call in the source and are not modelled. -/
def fromisoformat (s : Str) : Option PyDateTime :=
  match s with
  | [y1, y2, y3, y4, '-', m1, m2, '-', d1, d2] =>
    match parse4 y1 y2 y3 y4, parse2 m1 m2, parse2 d1 d2 with
    | some y, some m, some d => mkDatetime (y : Int) (m : Int) (d : Int) 0 0 0
    | _, _, _ => none
  | y1 :: y2 :: y3 :: y4 :: '-' :: m1 :: m2 :: '-' :: d1 :: d2 :: _sep :: rest =>
    match parse4 y1 y2 y3 y4, parse2 m1 m2, parse2 d1 d2, parseTimePart rest with
    | some y, some m, some d, some t =>
      mkDatetime (y : Int) (m : Int) (d : Int) t.1 t.2.1 t.2.2
    | _, _, _, _ => none
  | _ => none

/-- Models `datetime.strptime(s, "%Y-%m-%dT%H:%M:%S")` for the fixed-width form. -/
def strptimeYmdTHMS (s : Str) : Option PyDateTime :=
  match s with
  | [y1, y2, y3, y4, '-', m1, m2, '-', d1, d2, 'T', h1, h2, ':', n1, n2, ':', s1, s2] =>
    match parse4 y1 y2 y3 y4, parse2 m1 m2, parse2 d1 d2,
          parse2 h1 h2, parse2 n1 n2, parse2 s1 s2 with
    | some y, some m, some d, some h, some mi, some sec =>
      mkDatetime (y : Int) (m : Int) (d : Int) (h : Int) (mi : Int) (sec : Int)
    | _, _, _, _, _, _ => none
  | _ => none

/-- The scan in `_parse_dt_to_utc`: first index `i > 0` of the tail (the part
after the first `"T"`) holding `'+'` or `'-'`. -/
def findOffsetIdx (tail : Str) : Option Nat :=
  match tail with
  | [] => none
  | _ :: rest =>
    ((rest.findIdx? (fun c => c == '+' || c == '-')).map (· + 1))

/-- Offset suffix handling of `_parse_dt_to_utc`: split `±HH[:MM]`, build the
fixed-offset timezone (which `datetime.timezone` rejects at 24 hours or more),
and convert the naive datetime to UTC. `none` models the uncaught exception
when the offset digits fail `int()` or the offset is out of range. -/
def applyParsedOffset (dtNaive : PyDateTime) (offsetStr : Str) : Option PyDateTime :=
  match offsetStr with
  | [] => none
  | ch :: rest =>
    let sign : Int := if ch = '+' then 1 else -1
    match (rest.splitOn ':') with
    | [] => none
    | p0 :: ps =>
      match pyInt p0 with
      | none => none
      | some oh =>
        let om? : Option Int :=
          match ps with
          | [] => some 0
          | p1 :: _ => pyInt p1
        match om? with
        | none => none
        | some om =>
          let offMin := sign * (oh * 60 + om)
          if offMin.natAbs < 1440 then some (toUTC dtNaive offMin) else none

/-- Embeds `normalizer._parse_dt_to_utc`: parse an ISO 8601 datetime string to a UTC
instant. `none` models `ParseError`/any exception escaping the function; every
call site catches it and skips the event. -/
def parse_dt_to_utc (dt_str : Str) (tz_hint : Option Str) : Option PyDateTime :=
  let s := pyStrip dt_str
  if s.length = 10 then
    -- Date-only: midnight UTC, the timezone hint is deliberately unused.
    match pyInt (s.take 4), pyInt ((s.drop 5).take 2), pyInt ((s.drop 8).take 2) with
    | some y, some m, some d => mkDatetime y m d 0 0 0
    | _, _, _ => none
  else
    -- Embedded-offset branch: only taken when "T" occurs and a '+'/'-' is
    -- found past position 0 of the tail; a failing `fromisoformat` on the
    -- body falls through (the source `break`s) to the naive branch.
    let offsetBranch : Option (Option PyDateTime) :=
      if 'T' ∈ s then
        let body := s.takeWhile (fun c => c ≠ 'T')
        let tail := (s.dropWhile (fun c => c ≠ 'T')).drop 1
        match findOffsetIdx tail with
        | some i =>
          match fromisoformat (body ++ 'T' :: tail.take i) with
          | some dtNaive => some (applyParsedOffset dtNaive (tail.drop i))
          | none => none
        | none => none
      else none
    match offsetBranch with
    | some r => r
    | none =>
      -- Naive branch: `fromisoformat`, falling back to `strptime`; then the
      -- named-timezone hint (empty string is falsy in the source) or UTC.
      match (fromisoformat s).orElse (fun _ => strptimeYmdTHMS s) with
      | none => none
      | some dtNaive =>
        match tz_hint with
        | some hint =>
          if hint = [] then some dtNaive
          else some (toUTC dtNaive (msTzToOffsetHours hint * 60))
        | none => some dtNaive

-- ── Canonical event model and the three normalizers ─────────────────────────

/-- Embeds `normalizer.NormalizedEvent` (the canonical event record). -/
structure NormalizedEvent where
  event_id : Str
  source : Str
  employee_id : Str
  employee_email : Str
  title : Str
  availability : Str
  start_utc : PyDateTime
  end_utc : PyDateTime
  is_all_day : Bool
deriving DecidableEq, Repr

/-- A Google `start`/`end` object: `dateTime`+`timeZone` pair or a `date`. -/
structure GTime where
  dateTime : Option Str := none
  date : Option Str := none
  timeZone : Option Str := none
deriving DecidableEq, Repr

/-- The private extended-properties bag of a Google event. -/
structure ExtPriv where
  employeeId : Option Str := none
  employeeEmail : Option Str := none
  availabilityKind : Option Str := none
deriving DecidableEq, Repr

/-- The `creator` object of a Google event. -/
structure GCreator where
  email : Option Str := none
deriving DecidableEq, Repr

/-- One item of the Google JSON feed. `extPriv` models the chained lookup
`(ev.get("extendedProperties") or {}).get("private") or {}` (a missing link
anywhere collapses to the empty bag, i.e. `none`); `startObj`/`endObj` are the
`"start"`/`"end"` keys (`end` is a Lean keyword). -/
structure GoogleItem where
  id : Option Str := none
  summary : Option Str := none
  creator : Option GCreator := none
  extPriv : Option ExtPriv := none
  startObj : Option GTime := none
  endObj : Option GTime := none
deriving DecidableEq, Repr

/-- The `start_str` of a Google item: `start_obj.get("dateTime") or
start_obj.get("date", "")`. -/
def googleStartStr (ev : GoogleItem) : Str :=
  pyOrOpt (ev.startObj.getD {}).dateTime ((ev.startObj.getD {}).date.getD [])

/-- The `end_str` of a Google item. -/
def googleEndStr (ev : GoogleItem) : Str :=
  pyOrOpt (ev.endObj.getD {}).dateTime ((ev.endObj.getD {}).date.getD [])

/-- The `tz_hint` of a Google item: `start_obj.get("timeZone")`. -/
def googleTzHint (ev : GoogleItem) : Option Str :=
  (ev.startObj.getD {}).timeZone

/-- The body of the `normalize_google_json` loop for one item: `none` models
`continue` (missing start, or a parse failure caught by the `try`). -/
def googleItemToEvent (ev : GoogleItem) : Option NormalizedEvent :=
  let ext_priv := ev.extPriv.getD {}
  let emp_id := ext_priv.employeeId.getD []
  let emp_email := pyOr (ext_priv.employeeEmail.getD []) ((ev.creator.getD {}).email.getD [])
  let avail := ext_priv.availabilityKind.getD ("busy".data)
  let start_obj := ev.startObj.getD {}
  let is_all_day := start_obj.date.isSome && !start_obj.dateTime.isSome
  let start_str := googleStartStr ev
  let end_str := googleEndStr ev
  let tz_hint := googleTzHint ev
  if start_str = [] then none
  else
    match parse_dt_to_utc start_str tz_hint with
    | none => none
    | some start_utc =>
      match (if end_str = [] then some start_utc else parse_dt_to_utc end_str tz_hint) with
      | none => none
      | some end_utc =>
        some { event_id := ev.id.getD []
               source := ("google".data)
               employee_id := emp_id
               employee_email := emp_email
               title := ev.summary.getD []
               availability := avail
               start_utc := start_utc
               end_utc := end_utc
               is_all_day := is_all_day }

/-- Embeds `normalizer.normalize_google_json`, over the decoded `items` list. -/
def normalize_google_json (items : List GoogleItem) : List NormalizedEvent :=
  items.filterMap googleItemToEvent

/-- One row of the Google CSV export, fields read with `row.get(k, "")`.
`rowEnd` is the `"end"` column. -/
structure CsvRow where
  id : Option Str := none
  summary : Option Str := none
  start : Option Str := none
  rowEnd : Option Str := none
deriving DecidableEq, Repr

/-- The out-of-office keyword set of `normalize_google_csv`. -/
def oooKeywords : List Str :=
  [("ooo".data), ("pto".data), ("vacation".data), ("sick".data), ("out of office".data)]

/-- The body of the `normalize_google_csv` loop for one row: `none` models
`continue`. The `employee_db` parameter of the source builds an email lookup
that is never read afterwards, so it does not appear here; `emp_email` and
`emp_id` are always empty for this source. -/
def csvRowToEvent (row : CsvRow) : Option NormalizedEvent :=
  let start_str := row.start.getD []
  let end_str := row.rowEnd.getD []
  if start_str = [] then none
  else
    let summary := row.summary.getD []
    let avail := if oooKeywords.any (fun k => substringIn k (lowerStr summary))
                 then ("oof".data) else ("busy".data)
    match parse_dt_to_utc start_str none with
    | none => none
    | some start_utc =>
      match (if end_str = [] then some start_utc else parse_dt_to_utc end_str none) with
      | none => none
      | some end_utc =>
        some { event_id := row.id.getD []
               source := ("google_csv".data)
               employee_id := []
               employee_email := []
               title := summary
               availability := avail
               start_utc := start_utc
               end_utc := end_utc
               is_all_day := (pyStrip start_str).length = 10 }

/-- Embeds `normalizer.normalize_google_csv`, over the decoded rows. -/
def normalize_google_csv (rows : List CsvRow) : List NormalizedEvent :=
  rows.filterMap csvRowToEvent

/-- A Microsoft `start`/`end` object. -/
structure MsTime where
  dateTime : Option Str := none
  timeZone : Option Str := none
deriving DecidableEq, Repr

/-- One entry of the `extensions` list of a Microsoft event; `employeeId.isSome`
models the `"employeeId" in ext` presence test, the payload being the value
after `str(...)`. -/
structure MsExtension where
  employeeId : Option Str := none
  employeeEmail : Option Str := none
  availabilityKind : Option Str := none
deriving DecidableEq, Repr

/-- The `organizer` object: `emailAddressAddress` models the chained lookup
`((ev.get("organizer") or {}).get("emailAddress") or {}).get("address", "")`. -/
structure MsOrganizer where
  emailAddressAddress : Option Str := none
deriving DecidableEq, Repr

/-- One item of the Microsoft JSON feed (`value` list). -/
structure MsItem where
  id : Option Str := none
  subject : Option Str := none
  organizer : Option MsOrganizer := none
  extensions : Option (List MsExtension) := none
  showAs : Option Str := none
  isAllDay : Option Bool := none
  startObj : Option MsTime := none
  endObj : Option MsTime := none
deriving DecidableEq, Repr

/-- The `start_str` of a Microsoft item: `start_obj.get("dateTime", "")`. -/
def msStartStr (ev : MsItem) : Str := (ev.startObj.getD {}).dateTime.getD []

/-- The `end_str` of a Microsoft item. -/
def msEndStr (ev : MsItem) : Str := (ev.endObj.getD {}).dateTime.getD []

/-- The `tz_hint` of a Microsoft item: `start_obj.get("timeZone")`. -/
def msTzHint (ev : MsItem) : Option Str := (ev.startObj.getD {}).timeZone

/-- The body of the `normalize_microsoft_json` loop for one item: `none`
models `continue`. -/
def msItemToEvent (ev : MsItem) : Option NormalizedEvent :=
  let extensions := ev.extensions.getD []
  -- First extension carrying an employeeId, as the scan-and-break in the source.
  let found := extensions.find? (fun ext => ext.employeeId.isSome)
  let emp_id := match found with
    | some ext => ext.employeeId.getD []
    | none => []
  let emp_email0 := match found with
    | some ext => ext.employeeEmail.getD []
    | none => []
  let avail_kind0 := match found with
    | some ext => ext.availabilityKind.getD []
    | none => []
  let emp_email := if emp_email0 = []
    then (ev.organizer.getD {}).emailAddressAddress.getD []
    else emp_email0
  let show_as := ev.showAs.getD ("busy".data)
  let avail_kind := if avail_kind0 = []
    then (if show_as = ("oof".data) then ("oof".data) else ("busy".data))
    else avail_kind0
  let is_all_day := ev.isAllDay.getD false
  let start_str := msStartStr ev
  let end_str := msEndStr ev
  let tz_hint := msTzHint ev
  if start_str = [] then none
  else
    match parse_dt_to_utc start_str tz_hint with
    | none => none
    | some start_utc =>
      match (if end_str = [] then some start_utc else parse_dt_to_utc end_str tz_hint) with
      | none => none
      | some end_utc =>
        some { event_id := ev.id.getD []
               source := ("microsoft".data)
               employee_id := emp_id
               employee_email := emp_email
               title := ev.subject.getD []
               availability := avail_kind
               start_utc := start_utc
               end_utc := end_utc
               is_all_day := is_all_day }

/-- Embeds `normalizer.normalize_microsoft_json`, over the decoded `value` list. -/
def normalize_microsoft_json (items : List MsItem) : List NormalizedEvent :=
  items.filterMap msItemToEvent

-- ── Availability query (`normalizer.get_available_employees` etc.) ──────────

/-- A roster record. `id` is modelled after the `str(emp["id"])` coercion the
source applies everywhere; `max_tasks_per_day` carries the
`.get("max_tasks_per_day", 4)` default of the source. Fields the engine never reads
(role, ...) are not modelled. -/
structure Employee where
  id : Str
  email : Str := []
  first_name : Str := []
  last_name : Str := []
  skills : List Str := []
  max_tasks_per_day : Nat := 4
deriving DecidableEq, Repr

/-- Result record of `get_available_employees`. The per-employee entries
`{**emp, "employee_id": emp_id}` only duplicate `id` as a string, so they are
the `Employee` records themselves. -/
structure AvailResult where
  date : PyDate
  available : List Employee
  unavailable : List Employee
  available_count : Nat
  unavailable_count : Nat
deriving DecidableEq, Repr

/-- The busy/oof test on the `availability` field of an event. -/
def isBusyKind (ev : NormalizedEvent) : Bool :=
  decide (ev.availability = ("busy".data) ∨ ev.availability = ("oof".data))

/-- Embeds `normalizer.get_available_employees` (the function takes any datetime and
uses only its `.date()`; the embedding takes the date directly). The two busy
collections are Python sets used only for membership, modelled as lists. -/
def get_available_employees (events : List NormalizedEvent)
    (all_employees : List Employee) (target_date : PyDate) : AvailResult :=
  let overlapping := events.filter (fun ev =>
    isBusyKind ev &&
    (if ev.is_all_day
     then ev.start_utc.date.ble target_date && target_date.blt ev.end_utc.date
     else ev.start_utc.date.ble target_date && target_date.ble ev.end_utc.date))
  let busy_ids := (overlapping.filter (fun ev => !decide (ev.employee_id = []))).map
    (fun ev => ev.employee_id)
  let busy_emails := (overlapping.filter (fun ev => !decide (ev.employee_email = []))).map
    (fun ev => ev.employee_email)
  let isBusyEmp := fun (emp : Employee) =>
    decide (emp.id ∈ busy_ids) || decide (emp.email ∈ busy_emails)
  let available := all_employees.filter (fun emp => !isBusyEmp emp)
  let unavailable := all_employees.filter isBusyEmp
  { date := target_date
    available := available
    unavailable := unavailable
    available_count := available.length
    unavailable_count := unavailable.length }

/-- Embeds `normalizer.get_events_for_date` (the source returns `ev.to_dict()`
serializations; the embedding returns the events themselves). -/
def get_events_for_date (events : List NormalizedEvent) (target_date : PyDate) :
    List NormalizedEvent :=
  events.filter (fun ev =>
    if ev.is_all_day
    then ev.start_utc.date.ble target_date && target_date.blt ev.end_utc.date
    else ev.start_utc.date.ble target_date && target_date.ble ev.end_utc.date)

-- ── Utilization scorer (`reassignment.get_utilization`) ─────────────────────

/-- A task record. `status`/`priority`/`title` are `Option` because the source
reads them with bare `.get` (a serialized task keeps `None` for missing keys);
`assigned_to_id` is after `str(...)`; `effort_hours` (a float summed into
`active_task_hours`, which no claim concerns) is not modelled. -/
structure TaskRec where
  id : Str
  title : Option Str := none
  status : Option Str := none
  priority : Option Str := none
  required_skills : List Str := []
  assigned_to_id : Str := []
  last_reassigned : Option PyDateTime := none
  reassignment_reason : Option Str := none
deriving DecidableEq, Repr

/-- Decides `t.get("status") in ("in_progress", "todo")`. -/
def statusActiveB (t : TaskRec) : Bool :=
  t.status == some ("in_progress".data) || t.status == some ("todo".data)

/-- One annotated roster entry produced by `get_utilization`
(`active_task_hours` and the embedded `active_tasks` list are omitted:
no claim concerns them). -/
structure UtilEntry where
  emp : Employee
  is_available : Bool
  active_task_count : Nat
  calendar_event_count : Nat
  utilization_pct : Nat
  free_capacity : Nat
deriving DecidableEq, Repr

/-- Loop body of `get_utilization` for one employee. -/
def annotateEmployee (day_events : List NormalizedEvent) (available_ids : List Str)
    (tasks : List TaskRec) (emp : Employee) : UtilEntry :=
  let max_tasks := emp.max_tasks_per_day
  let active_tasks := tasks.filter (fun t =>
    decide (t.assigned_to_id = emp.id) && statusActiveB t)
  let task_count := active_tasks.length
  let cal_events := day_events.filter (fun e =>
    (decide (e.employee_id = emp.id) || decide (e.employee_email = emp.email)) &&
    !e.is_all_day)
  { emp := emp
    is_available := decide (emp.id ∈ available_ids)
    active_task_count := task_count
    calendar_event_count := cal_events.length
    utilization_pct := min 100 (pyRoundDiv (task_count * 100) (max max_tasks 1))
    free_capacity := max_tasks - task_count }

/-- Sort key of `get_utilization`: available first, then ascending
utilization, then descending free capacity. -/
def utilLe (a b : UtilEntry) : Bool :=
  let ka : Int := if a.is_available then 0 else 1
  let kb : Int := if b.is_available then 0 else 1
  decide (ka < kb ∨ (ka = kb ∧
    ((a.utilization_pct : Int) < b.utilization_pct ∨
     ((a.utilization_pct : Int) = b.utilization_pct ∧
      -(a.free_capacity : Int) ≤ -(b.free_capacity : Int)))))

/-- Embeds `reassignment.get_utilization` (the stable Python `list.sort` is modelled
by the stable `List.insertionSort`). -/
def get_utilization (events : List NormalizedEvent) (employees : List Employee)
    (tasks : List TaskRec) (query_date : PyDate) : List UtilEntry :=
  let avail_result := get_available_employees events employees query_date
  let available_ids := avail_result.available.map (fun e => e.id)
  let day_events := get_events_for_date events query_date
  let results := employees.map (annotateEmployee day_events available_ids tasks)
  List.insertionSort (fun a b => utilLe a b = true) results

-- ── Reassignment engine (`reassignment.py`) ─────────────────────────────────

/-- Computes `len(set(req) & set(skills))`: distinct required skills the candidate has. -/
def skillInterCount (req skills : List Str) : Nat :=
  (req.dedup.filter (fun s => decide (s ∈ skills))).length

/-- Embeds `reassignment._score_candidate`. -/
def score_candidate (candidate : UtilEntry) (task : TaskRec) : Int :=
  let skill_match := skillInterCount task.required_skills candidate.emp.skills
  (skill_match : Int) * 15 - (candidate.utilization_pct : Int) -
    (candidate.calendar_event_count : Int) * 3

/-- One ranked candidate of a suggestion (the `_serialize_emp` fields live in
`entry`). -/
structure CandidateRec where
  entry : UtilEntry
  skill_match_count : Nat
  skill_match_pct : Nat
  skill_gap : List Str
  score : Int
deriving DecidableEq, Repr

/-- Candidate sort key: `(-score, -free_capacity)` ascending, i.e. score
descending then free capacity descending. -/
def candLe (a b : CandidateRec) : Bool :=
  decide (-a.score < -b.score ∨ (-a.score = -b.score ∧
    -(a.entry.free_capacity : Int) ≤ -(b.entry.free_capacity : Int)))

/-- Packages `candLe` as a decidable relation, for the candidate sort. -/
def candLeP (a b : CandidateRec) : Prop := candLe a b = true

instance : DecidableRel candLeP :=
  fun a b => inferInstanceAs (Decidable (candLe a b = true))

instance : IsTotal CandidateRec candLeP :=
  ⟨fun a b => by simp only [candLeP, candLe, decide_eq_true_eq]; omega⟩

instance : IsTrans CandidateRec candLeP :=
  ⟨fun a b c hab hbc => by
    simp only [candLeP, candLe, decide_eq_true_eq] at hab hbc ⊢
    omega⟩

/-- The per-task candidate construction of `suggest_reassignments`: the
available pool minus the current assignee, each scored and annotated. -/
def candidatesForTask (available_pool : List UtilEntry) (assignee_id : Str)
    (task : TaskRec) : List CandidateRec :=
  (available_pool.filter (fun emp => !decide (emp.emp.id = assignee_id))).map
    (fun emp =>
      let required_skills := task.required_skills
      let emp_skills := emp.emp.skills
      let skill_match := skillInterCount required_skills emp_skills
      { entry := emp
        skill_match_count := skill_match
        skill_match_pct := pyRoundDiv (skill_match * 100) (max required_skills.dedup.length 1)
        skill_gap := List.insertionSort (fun a b => strLe a b = true)
          (required_skills.dedup.filter (fun s => !decide (s ∈ emp_skills)))
        score := score_candidate emp task })

/-- One element of the `suggestions` list. `current_assignee` is `none` when
`util_map.get(assignee_id, {})` falls back to the empty dict; the constant
reason string is not modelled. -/
structure Suggestion where
  task : TaskRec
  current_assignee : Option UtilEntry
  needs_reassignment : Bool
  recommendations : List CandidateRec
deriving DecidableEq, Repr

/-- The `util_map` lookup: the dict comprehension keeps the last entry per id. -/
def utilMapGet (utilization : List UtilEntry) (aid : Str) : Option UtilEntry :=
  utilization.foldl (fun acc e => if e.emp.id = aid then some e else acc) none

/-- Membership of an id in `unavailable_ids`. -/
def isUnavailableId (utilization : List UtilEntry) (aid : Str) : Bool :=
  utilization.any (fun e => decide (e.emp.id = aid) && !e.is_available)

/-- Models `priority_order.get(serialized_task["priority"], 9)`: the serialized task
always carries the `priority` key (possibly `None`), so the `"low"` default
of the dict lookup is dead and an absent priority ranks 9. -/
def priorityRank (p : Option Str) : Int :=
  match p with
  | some q =>
    if q = ("critical".data) then 0
    else if q = ("high".data) then 1
    else if q = ("medium".data) then 2
    else if q = ("low".data) then 3
    else 9
  | none => 9

/-- Suggestion sort key: tasks needing reassignment first, then priority. -/
def suggLe (a b : Suggestion) : Bool :=
  let ka : Int := if a.needs_reassignment then 0 else 1
  let kb : Int := if b.needs_reassignment then 0 else 1
  decide (ka < kb ∨ (ka = kb ∧ priorityRank a.task.priority ≤ priorityRank b.task.priority))

/-- Loop body of `suggest_reassignments` for one active task. -/
def suggestionForTask (utilization available_pool : List UtilEntry) (top_n : Nat)
    (task : TaskRec) : Suggestion :=
  let assignee_id := task.assigned_to_id
  let assignee_info := utilMapGet utilization assignee_id
  if !isUnavailableId utilization assignee_id then
    { task := task
      current_assignee := assignee_info
      needs_reassignment := false
      recommendations := [] }
  else
    let candidates := candidatesForTask available_pool assignee_id task
    { task := task
      current_assignee := assignee_info
      needs_reassignment := true
      recommendations := (List.insertionSort candLeP candidates).take top_n }

/-- Result record of `suggest_reassignments`. -/
structure SuggestResult where
  date : PyDate
  total_tasks_checked : Nat
  needs_reassignment : Nat
  suggestions : List Suggestion
  utilization_snapshot : List UtilEntry
deriving DecidableEq, Repr

/-- Embeds `reassignment.suggest_reassignments`. -/
def suggest_reassignments (events : List NormalizedEvent) (employees : List Employee)
    (tasks : List TaskRec) (query_date : PyDate) (top_n : Nat) : SuggestResult :=
  let utilization := get_utilization events employees tasks query_date
  let available_pool := utilization.filter (fun e => e.is_available && decide (0 < e.free_capacity))
  let active_tasks := tasks.filter statusActiveB
  let raw := active_tasks.map (suggestionForTask utilization available_pool top_n)
  let suggestions := List.insertionSort (fun a b => suggLe a b = true) raw
  { date := query_date
    total_tasks_checked := active_tasks.length
    needs_reassignment := (suggestions.filter (fun s => s.needs_reassignment)).length
    suggestions := suggestions
    utilization_snapshot := utilization }

-- ── Reassignment commit (`reassignment.execute_reassignment`) ───────────────

/-- The shared roster/task store (`EmployeeDatabase.json`). -/
structure Database where
  tasks : List TaskRec
  employees : List Employee
deriving DecidableEq, Repr

/-- The audit record `execute_reassignment` returns. `executed_at` and the
stamped `last_reassigned` are the `now` instant supplied by the clock of the
caller. -/
structure AuditRecord where
  task_id : Str
  task_title : Option Str
  from_employee_id : Str
  from_employee_name : Str
  to_employee_id : Str
  to_employee_name : Str
  reason : Str
  executed_at : PyDateTime
deriving DecidableEq, Repr

/-- In-place mutation of the first list element satisfying `p`, as mutating
the object `next(...)` found mutates exactly that element of `db["tasks"]`. -/
def replaceFirst (p : TaskRec → Bool) (updated : TaskRec) : List TaskRec → List TaskRec
  | [] => []
  | t :: ts => if p t then updated :: ts else t :: replaceFirst p updated ts

/-- Embeds `reassignment.execute_reassignment` over the decoded store. `Except.error`
models the raised `ValueError` (named `NotFoundError` in the spec); the returned
`Database` is the content `json.dump` persists. `new_assignee_id` is compared
with ids as stored, modelled as `Str`. -/
def execute_reassignment (db : Database) (task_id : Str) (new_assignee_id : Str)
    (reason : Str) (now : PyDateTime) : Except Str (Database × AuditRecord) :=
  let tasks := db.tasks
  let employees := db.employees
  match tasks.find? (fun t => decide (t.id = task_id)) with
  | none => .error ("Task not found in database".data)
  | some task =>
    match employees.find? (fun e => decide (e.id = new_assignee_id)) with
    | none => .error ("Employee ID not found in database".data)
    | some new_emp =>
      let old_emp := employees.find? (fun e => decide (e.id = task.assigned_to_id))
      let old_assignee_id := task.assigned_to_id
      let updated := { task with assigned_to_id := new_assignee_id
                                 last_reassigned := some now
                                 reassignment_reason := some reason }
      let newTasks := replaceFirst (fun t => decide (t.id = task_id)) updated tasks
      let audit : AuditRecord :=
        { task_id := task_id
          task_title := task.title
          from_employee_id := old_assignee_id
          from_employee_name :=
            match old_emp with
            | some oe => oe.first_name ++ ' ' :: oe.last_name
            | none => ("Unknown".data)
          to_employee_id := new_assignee_id
          to_employee_name := new_emp.first_name ++ ' ' :: new_emp.last_name
          reason := reason
          executed_at := now }
      .ok (⟨newTasks, employees⟩, audit)

/-- Content of the store file after a call: the error paths raise before the
`open(..., "w")`, so the file keeps its prior bytes; the success path writes
the mutated store. -/
def storeAfterExecute (db : Database) (task_id : Str) (new_assignee_id : Str)
    (reason : Str) (now : PyDateTime) : Database :=
  match execute_reassignment db task_id new_assignee_id reason now with
  | .error _ => db
  | .ok (nextDb, _) => nextDb

-- ── Spec-side definitions (for refinement comparison) and sample data ───────

/-- The overlap predicate exactly as §4.3 of the spec words it: all-day events
overlap iff `start_date <= target_date < end_date` (end exclusive), timed
events iff `start_date <= target_date <= end_date` (end inclusive). -/
def specOverlaps (ev : NormalizedEvent) (target : PyDate) : Bool :=
  if ev.is_all_day
  then ev.start_utc.date.ble target && target.blt ev.end_utc.date
  else ev.start_utc.date.ble target && target.ble ev.end_utc.date

/-- The ranking order the spec prescribes for candidates: score descending,
ties broken by more free capacity. -/
def candRankRel (a b : CandidateRec) : Prop :=
  b.score < a.score ∨ (a.score = b.score ∧ b.entry.free_capacity ≤ a.entry.free_capacity)

/-- The `YYYY-MM-DD` rendering of a date with a four-digit year: the exact
10-character form claim C9 quantifies over. -/
def digitChar (n : Nat) : Char := Char.ofNat (48 + n)

/-- See `digitChar`. -/
def renderYmd (y m d : Nat) : Str :=
  [digitChar (y / 1000), digitChar (y / 100 % 10), digitChar (y / 10 % 10),
   digitChar (y % 10), '-', digitChar (m / 10), digitChar (m % 10), '-',
   digitChar (d / 10), digitChar (d % 10)]

/-- Sample all-day event, 2026-03-01 to 2026-03-03 (spec scenario). -/
def allDayMarEvent : NormalizedEvent :=
  { event_id := ("a1".data), source := ("google".data), employee_id := [],
    employee_email := [], title := [], availability := ("busy".data),
    start_utc := ⟨2026, 3, 1, 0, 0, 0⟩, end_utc := ⟨2026, 3, 3, 0, 0, 0⟩,
    is_all_day := true }

/-- Sample timed event, 2026-03-01T09:00Z to 2026-03-01T10:00Z (spec
scenario). -/
def timedMarEvent : NormalizedEvent :=
  { event_id := ("t1".data), source := ("google".data), employee_id := [],
    employee_email := [], title := [], availability := ("busy".data),
    start_utc := ⟨2026, 3, 1, 9, 0, 0⟩, end_utc := ⟨2026, 3, 1, 10, 0, 0⟩,
    is_all_day := false }

/-- Sample roster member who is out of office in the sample scenario. -/
def sampleAlice : Employee :=
  { id := ("1".data), email := ("alice@x.com".data), first_name := ("Alice".data),
    last_name := ("A".data), skills := [("payments".data), ("api".data)],
    max_tasks_per_day := 4 }

/-- Sample roster member who stays available in the sample scenario. -/
def sampleBob : Employee :=
  { id := ("2".data), email := ("bob@x.com".data), first_name := ("Bob".data),
    last_name := ("B".data), skills := [("payments".data)],
    max_tasks_per_day := 4 }

/-- Sample all-day out-of-office event for `sampleAlice` covering the sample
date. -/
def sampleOofEvent : NormalizedEvent :=
  { event_id := ("e1".data), source := ("google".data), employee_id := ("1".data),
    employee_email := ("alice@x.com".data), title := ("PTO".data),
    availability := ("oof".data), start_utc := ⟨2026, 3, 1, 0, 0, 0⟩,
    end_utc := ⟨2026, 3, 3, 0, 0, 0⟩, is_all_day := true }

/-- Sample active task assigned to `sampleAlice`. -/
def sampleTask : TaskRec :=
  { id := ("T1".data), title := some ("Fix payments".data),
    status := some ("todo".data), priority := some ("high".data),
    required_skills := [("payments".data), ("api".data)],
    assigned_to_id := ("1".data) }

/-- Sample roster. -/
def sampleRoster : List Employee := [sampleAlice, sampleBob]

/-- Sample query date. -/
def sampleDate : PyDate := ⟨2026, 3, 1⟩

/-- The scoring scenario of the spec: a candidate with `utilization_pct = 25` and
one timed calendar event. -/
def c3ScenarioEntry : UtilEntry :=
  { emp := sampleBob, is_available := true, active_task_count := 1,
    calendar_event_count := 1, utilization_pct := 25, free_capacity := 3 }

/-- Google item whose parsed end (2026-03-01) precedes its parsed start
(2026-03-02): the C1 counterexample input. -/
def c1BadItem : GoogleItem :=
  { startObj := some { date := some ("2026-03-02".data) },
    endObj := some { date := some ("2026-03-01".data) } }

/-- Sample store for the commit claim. -/
def sampleDb : Database := { tasks := [sampleTask], employees := sampleRoster }

/-- Google item with a date-only start and no end at all (C1/C10 witness). -/
def c1MissingEndItem : GoogleItem :=
  { startObj := some { date := some ("2026-03-01".data) } }

/-- The event `normalize_google_json` produces for `c1MissingEndItem`. -/
def c1MissingEndEvent : NormalizedEvent :=
  { event_id := [], source := ("google".data), employee_id := [],
    employee_email := [], title := [], availability := ("busy".data),
    start_utc := ⟨2026, 3, 1, 0, 0, 0⟩, end_utc := ⟨2026, 3, 1, 0, 0, 0⟩,
    is_all_day := true }

/-- The state of `sampleTask` after the sample successful commit. -/
def sampleTaskAfter : TaskRec :=
  { sampleTask with
    assigned_to_id := ("2".data)
    last_reassigned := some ⟨2026, 3, 1, 12, 0, 0⟩
    reassignment_reason := some ("reassign".data) }

/-- The store after the sample successful commit. -/
def sampleDbAfter : Database :=
  { tasks := [sampleTaskAfter], employees := sampleRoster }

/-- The audit record of the sample successful commit. -/
def sampleAudit : AuditRecord :=
  { task_id := ("T1".data), task_title := some ("Fix payments".data),
    from_employee_id := ("1".data), from_employee_name := ("Alice A".data),
    to_employee_id := ("2".data), to_employee_name := ("Bob B".data),
    reason := ("reassign".data), executed_at := ⟨2026, 3, 1, 12, 0, 0⟩ }

/-- The suggestion `suggest_reassignments` computes for `sampleTask` in the
sample scenario (the assignee `sampleAlice` is out of office). -/
def sampleSuggestion : Suggestion :=
  suggestionForTask
    (get_utilization [sampleOofEvent] sampleRoster [sampleTask] sampleDate)
    ((get_utilization [sampleOofEvent] sampleRoster [sampleTask] sampleDate).filter
      (fun e => e.is_available && decide (0 < e.free_capacity)))
    3 sampleTask

/-- The single recommendation inside `sampleSuggestion`: `sampleBob`, one
matching skill, no load. -/
def sampleCandidate : CandidateRec :=
  { entry := { emp := sampleBob, is_available := true, active_task_count := 0,
               calendar_event_count := 0, utilization_pct := 0, free_capacity := 4 },
    skill_match_count := 1, skill_match_pct := 50,
    skill_gap := [("api".data)], score := 15 }

-- ── Helper lemmas ───────────────────────────────────────────────────────────

lemma filter_and_self {α : Type*} (p q : α → Bool) (l : List α) :
    l.filter (fun a => p a && q a) = (l.filter q).filter (fun a => p a && q a) := by
  rw [List.filter_filter]
  apply List.filter_congr
  intro x _
  cases p x <;> cases q x <;> rfl

lemma length_filter_split {α : Type*} (p : α → Bool) (l : List α) :
    (l.filter (fun a => !(p a))).length + (l.filter p).length = l.length := by
  induction l with
  | nil => rfl
  | cons a t ih =>
    cases hp : p a <;> simp [List.filter_cons, hp] <;> omega

lemma filter_partition_mem {α : Type*} (p : α → Bool) (l : List α) (a : α) (h : a ∈ l) :
    (a ∈ l.filter (fun x => !(p x)) ∧ a ∉ l.filter p) ∨
    (a ∉ l.filter (fun x => !(p x)) ∧ a ∈ l.filter p) := by
  by_cases hp : p a = true
  · refine Or.inr ⟨fun hmem => ?_, List.mem_filter.mpr ⟨h, hp⟩⟩
    have h2 := (List.mem_filter.mp hmem).2
    simp [hp] at h2
  · refine Or.inl ⟨List.mem_filter.mpr ⟨h, ?_⟩, fun hmem => hp (List.mem_filter.mp hmem).2⟩
    simp [Bool.not_eq_true] at hp
    simp [hp]

lemma date_ble_blt_false {a t : PyDate} (h : a.ble t = true) : t.blt a = false := by
  simp only [PyDate.ble, decide_eq_true_eq] at h
  simp only [PyDate.blt, decide_eq_false_iff_not]
  omega

lemma dtBle_refl (a : PyDateTime) : dtBle a a = true := by
  cases a
  simp [dtBle, PyDateTime.date, PyDate.blt]

-- ── Claim theorems ──────────────────────────────────────────────────────────

/-- C2: the overlap predicate used by both `get_available_employees` and
`get_events_for_date` is `specOverlaps` — all-day events overlap a target date
iff `start_date <= target_date < end_date` (end exclusive), timed events iff
`start_date <= target_date <= end_date` (end inclusive): `get_events_for_date`
returns exactly the events satisfying it, `get_available_employees` is
insensitive to events not satisfying it, and the concrete spec scenarios
hold (the 2026-03-01 → 2026-03-03 all-day event overlaps 2026-03-01 and
2026-03-02 but not 2026-03-03; the 09:00Z–10:00Z timed event of 2026-03-01
overlaps 2026-03-01 but not 2026-03-02). -/
theorem claim_C2_overlap_rule :
    (∀ (events : List NormalizedEvent) (d : PyDate),
      get_events_for_date events d = events.filter (fun ev => specOverlaps ev d)) ∧
    (∀ (events : List NormalizedEvent) (emps : List Employee) (d : PyDate),
      get_available_employees events emps d =
        get_available_employees (events.filter (fun ev => specOverlaps ev d)) emps d) ∧
    get_events_for_date [allDayMarEvent] ⟨2026, 3, 1⟩ = [allDayMarEvent] ∧
    get_events_for_date [allDayMarEvent] ⟨2026, 3, 2⟩ = [allDayMarEvent] ∧
    get_events_for_date [allDayMarEvent] ⟨2026, 3, 3⟩ = [] ∧
    get_events_for_date [timedMarEvent] ⟨2026, 3, 1⟩ = [timedMarEvent] ∧
    get_events_for_date [timedMarEvent] ⟨2026, 3, 2⟩ = [] := by
  refine ⟨fun events d => rfl, fun events emps d => ?_, by decide, by decide, by decide,
    by decide, by decide⟩
  have hov := filter_and_self isBusyKind
    (fun ev => if ev.is_all_day
      then ev.start_utc.date.ble d && d.blt ev.end_utc.date
      else ev.start_utc.date.ble d && d.ble ev.end_utc.date) events
  simp only [get_available_employees, specOverlaps]
  simp only [hov]

/-- C6: `get_available_employees` strictly partitions the roster — the lengths
of the two lists sum to the roster size, and every roster member lands in
exactly one of `available`/`unavailable`. -/
theorem claim_C6_partition (events : List NormalizedEvent) (emps : List Employee)
    (d : PyDate) :
    (get_available_employees events emps d).available.length +
      (get_available_employees events emps d).unavailable.length = emps.length ∧
    ∀ emp ∈ emps,
      (emp ∈ (get_available_employees events emps d).available ∧
       emp ∉ (get_available_employees events emps d).unavailable) ∨
      (emp ∉ (get_available_employees events emps d).available ∧
       emp ∈ (get_available_employees events emps d).unavailable) := by
  simp only [get_available_employees]
  exact ⟨length_filter_split _ emps, fun emp hemp => filter_partition_mem _ emps emp hemp⟩

/-- Witness for C6 at a concrete scenario: `sampleAlice` (marked out of office
by `sampleOofEvent`) lands in exactly the `unavailable` list. -/
theorem claim_C6_witness :
    sampleAlice ∈ sampleRoster ∧
    ((sampleAlice ∈ (get_available_employees [sampleOofEvent] sampleRoster sampleDate).available ∧
      sampleAlice ∉ (get_available_employees [sampleOofEvent] sampleRoster sampleDate).unavailable) ∨
     (sampleAlice ∉ (get_available_employees [sampleOofEvent] sampleRoster sampleDate).available ∧
      sampleAlice ∈ (get_available_employees [sampleOofEvent] sampleRoster sampleDate).unavailable)) :=
  ⟨by decide,
   (claim_C6_partition [sampleOofEvent] sampleRoster sampleDate).2 sampleAlice (by decide)⟩

lemma degenerate_all_day_no_overlap (ev : NormalizedEvent) (d : PyDate)
    (ha : ev.is_all_day = true) (he : ev.end_utc = ev.start_utc) :
    (if ev.is_all_day
     then ev.start_utc.date.ble d && d.blt ev.end_utc.date
     else ev.start_utc.date.ble d && d.ble ev.end_utc.date) = false := by
  cases hb : ev.start_utc.date.ble d
  · simp [ha, he, hb]
  · simp [ha, he, hb, date_ble_blt_false hb]

lemma googleItemToEvent_end_empty (it : GoogleItem) (e : NormalizedEvent)
    (he : googleItemToEvent it = some e) (hend : googleEndStr it = []) :
    e.end_utc = e.start_utc := by
  simp only [googleItemToEvent, hend] at he
  by_cases h1 : googleStartStr it = []
  · simp [h1] at he
  · simp only [h1, if_false] at he
    cases hp : parse_dt_to_utc (googleStartStr it) (googleTzHint it) with
    | none => rw [hp] at he; simp at he
    | some s =>
      rw [hp] at he
      simp only [eq_self_iff_true, if_true, ite_true, Option.some.injEq] at he
      subst he
      rfl

lemma csvRowToEvent_end_empty (row : CsvRow) (e : NormalizedEvent)
    (he : csvRowToEvent row = some e) (hend : row.rowEnd.getD [] = []) :
    e.end_utc = e.start_utc := by
  simp only [csvRowToEvent, hend] at he
  by_cases h1 : row.start.getD [] = []
  · simp [h1] at he
  · simp only [h1, if_false] at he
    cases hp : parse_dt_to_utc (row.start.getD []) none with
    | none => rw [hp] at he; simp at he
    | some s =>
      rw [hp] at he
      simp only [eq_self_iff_true, if_true, ite_true, Option.some.injEq] at he
      subst he
      rfl

lemma msItemToEvent_end_empty (it : MsItem) (e : NormalizedEvent)
    (he : msItemToEvent it = some e) (hend : msEndStr it = []) :
    e.end_utc = e.start_utc := by
  simp only [msItemToEvent, hend] at he
  by_cases h1 : msStartStr it = []
  · simp [h1] at he
  · simp only [h1, if_false] at he
    cases hp : parse_dt_to_utc (msStartStr it) (msTzHint it) with
    | none => rw [hp] at he; simp at he
    | some s =>
      rw [hp] at he
      simp only [eq_self_iff_true, if_true, ite_true, Option.some.injEq] at he
      subst he
      rfl

/-- C10: an all-day event with `end_utc = start_utc` — in particular one the
Google normalizer produced from an item with no end field, since it then sets
`end_utc = start_utc` — overlaps no target date: it never appears in
`get_events_for_date` and never changes the availability partition. -/
theorem claim_C10_degenerate_all_day :
    (∀ (ev : NormalizedEvent) (events1 events2 : List NormalizedEvent)
       (emps : List Employee) (d : PyDate),
       ev.is_all_day = true → ev.end_utc = ev.start_utc →
       get_events_for_date [ev] d = [] ∧
       get_events_for_date (events1 ++ ev :: events2) d =
         get_events_for_date (events1 ++ events2) d ∧
       get_available_employees (events1 ++ ev :: events2) emps d =
         get_available_employees (events1 ++ events2) emps d) ∧
    (∀ (it : GoogleItem) (e : NormalizedEvent), googleItemToEvent it = some e →
       it.endObj = none → e.end_utc = e.start_utc) := by
  constructor
  · intro ev events1 events2 emps d ha he
    have hov := degenerate_all_day_no_overlap ev d ha he
    refine ⟨?_, ?_, ?_⟩
    · simp [get_events_for_date, hov]
    · simp [get_events_for_date, List.filter_append, List.filter_cons, hov]
    · have hov2 : (events1 ++ ev :: events2).filter
          (fun x => isBusyKind x &&
            (if x.is_all_day then x.start_utc.date.ble d && d.blt x.end_utc.date
             else x.start_utc.date.ble d && d.ble x.end_utc.date)) =
          (events1 ++ events2).filter
          (fun x => isBusyKind x &&
            (if x.is_all_day then x.start_utc.date.ble d && d.blt x.end_utc.date
             else x.start_utc.date.ble d && d.ble x.end_utc.date)) := by
        simp [List.filter_append, List.filter_cons, hov]
      simp only [get_available_employees, hov2]
  · intro it e he hend
    apply googleItemToEvent_end_empty it e he
    simp [googleEndStr, hend, pyOrOpt]

/-- Witness for C10: a degenerate all-day event (end = start, as the Google
normalizer produces for `{start: {date: "2026-03-01"}}` with no end) is
invisible to both queries on its own start date. -/
theorem claim_C10_witness :
    get_events_for_date
      [{ allDayMarEvent with end_utc := ⟨2026, 3, 1, 0, 0, 0⟩ }] ⟨2026, 3, 1⟩ = [] ∧
    get_events_for_date
      ([sampleOofEvent] ++ { allDayMarEvent with end_utc := ⟨2026, 3, 1, 0, 0, 0⟩ } :: [])
      ⟨2026, 3, 1⟩ =
      get_events_for_date ([sampleOofEvent] ++ []) ⟨2026, 3, 1⟩ ∧
    get_available_employees
      ([sampleOofEvent] ++ { allDayMarEvent with end_utc := ⟨2026, 3, 1, 0, 0, 0⟩ } :: [])
      sampleRoster ⟨2026, 3, 1⟩ =
      get_available_employees ([sampleOofEvent] ++ []) sampleRoster ⟨2026, 3, 1⟩ :=
  claim_C10_degenerate_all_day.1
    { allDayMarEvent with end_utc := ⟨2026, 3, 1, 0, 0, 0⟩ }
    [sampleOofEvent] [] sampleRoster ⟨2026, 3, 1⟩ (by decide) (by decide)

/-- C1 as stated is false: `normalize_google_json` keeps an event whose parsed
end (2026-03-01) precedes its parsed start (2026-03-02) — nothing rejects or
coerces it, so the result holds an event with `end_utc < start_utc`. -/
theorem claim_C1_counterexample :
    (normalize_google_json [c1BadItem]).length = 1 ∧
    (normalize_google_json [c1BadItem]).all
      (fun e => dtBlt e.end_utc e.start_utc && !dtBle e.start_utc e.end_utc) = true := by
  decide

/-- C1 amended: the ordering invariant is only guaranteed through the
missing-end rule — for each of the three normalization entry points, every
produced event whose source end string is empty/missing gets
`end_utc = start_utc`, hence `start_utc <= end_utc`; an event whose parsed end
precedes its parsed start is kept unchanged (see the counterexample). -/
theorem claim_C1_end_missing :
    (∀ (it : GoogleItem) (e : NormalizedEvent), googleItemToEvent it = some e →
       googleEndStr it = [] → e.end_utc = e.start_utc ∧ dtBle e.start_utc e.end_utc = true) ∧
    (∀ (row : CsvRow) (e : NormalizedEvent), csvRowToEvent row = some e →
       row.rowEnd.getD [] = [] → e.end_utc = e.start_utc ∧ dtBle e.start_utc e.end_utc = true) ∧
    (∀ (it : MsItem) (e : NormalizedEvent), msItemToEvent it = some e →
       msEndStr it = [] → e.end_utc = e.start_utc ∧ dtBle e.start_utc e.end_utc = true) := by
  refine ⟨?_, ?_, ?_⟩
  · intro it e he hend
    have h := googleItemToEvent_end_empty it e he hend
    exact ⟨h, by rw [h]; exact dtBle_refl _⟩
  · intro row e he hend
    have h := csvRowToEvent_end_empty row e he hend
    exact ⟨h, by rw [h]; exact dtBle_refl _⟩
  · intro it e he hend
    have h := msItemToEvent_end_empty it e he hend
    exact ⟨h, by rw [h]; exact dtBle_refl _⟩

/-- Witness for the amended C1: the Google item with a date-only start and no
end yields an event with `end_utc = start_utc`. -/
theorem claim_C1_witness :
    c1MissingEndEvent.end_utc = c1MissingEndEvent.start_utc ∧
    dtBle c1MissingEndEvent.start_utc c1MissingEndEvent.end_utc = true :=
  claim_C1_end_missing.1 c1MissingEndItem c1MissingEndEvent (by decide) (by decide)

/-- C8: each normalization entry point is total (it returns the filter-mapped
list, never an error), and a source record is excluded exactly when its start
string is missing/empty or one of its timestamps fails to parse. -/
theorem claim_C8_silent_exclusion :
    (∀ (items : List GoogleItem),
       normalize_google_json items = items.filterMap googleItemToEvent) ∧
    (∀ (it : GoogleItem), googleItemToEvent it = none ↔
       (googleStartStr it = [] ∨
        parse_dt_to_utc (googleStartStr it) (googleTzHint it) = none ∨
        (googleEndStr it ≠ [] ∧ parse_dt_to_utc (googleEndStr it) (googleTzHint it) = none))) ∧
    (∀ (rows : List CsvRow),
       normalize_google_csv rows = rows.filterMap csvRowToEvent) ∧
    (∀ (row : CsvRow), csvRowToEvent row = none ↔
       (row.start.getD [] = [] ∨
        parse_dt_to_utc (row.start.getD []) none = none ∨
        (row.rowEnd.getD [] ≠ [] ∧ parse_dt_to_utc (row.rowEnd.getD []) none = none))) ∧
    (∀ (items : List MsItem),
       normalize_microsoft_json items = items.filterMap msItemToEvent) ∧
    (∀ (it : MsItem), msItemToEvent it = none ↔
       (msStartStr it = [] ∨
        parse_dt_to_utc (msStartStr it) (msTzHint it) = none ∨
        (msEndStr it ≠ [] ∧ parse_dt_to_utc (msEndStr it) (msTzHint it) = none))) := by
  refine ⟨fun _ => rfl, ?_, fun _ => rfl, ?_, fun _ => rfl, ?_⟩
  · intro it
    simp only [googleItemToEvent]
    by_cases h1 : googleStartStr it = []
    · simp [h1]
    · simp only [h1, if_false, ne_eq, false_or]
      cases hp : parse_dt_to_utc (googleStartStr it) (googleTzHint it) with
      | none => simp [h1]
      | some s =>
        by_cases h3 : googleEndStr it = []
        · simp [h3]
        · cases hq : parse_dt_to_utc (googleEndStr it) (googleTzHint it) with
          | none => simp [h3, hq]
          | some t => simp [h3, hq]
  · intro row
    simp only [csvRowToEvent]
    by_cases h1 : row.start.getD [] = []
    · simp [h1]
    · simp only [h1, if_false, ne_eq, false_or]
      cases hp : parse_dt_to_utc (row.start.getD []) none with
      | none => simp [h1]
      | some s =>
        by_cases h3 : row.rowEnd.getD [] = []
        · simp [h3]
        · cases hq : parse_dt_to_utc (row.rowEnd.getD []) none with
          | none => simp [h3, hq]
          | some t => simp [h3, hq]
  · intro it
    simp only [msItemToEvent]
    by_cases h1 : msStartStr it = []
    · simp [h1]
    · simp only [h1, if_false, ne_eq, false_or]
      cases hp : parse_dt_to_utc (msStartStr it) (msTzHint it) with
      | none => simp [h1]
      | some s =>
        by_cases h3 : msEndStr it = []
        · simp [h3]
        · cases hq : parse_dt_to_utc (msEndStr it) (msTzHint it) with
          | none => simp [h3, hq]
          | some t => simp [h3, hq]

lemma mem_get_utilization {events : List NormalizedEvent} {emps : List Employee}
    {tasks : List TaskRec} {d : PyDate} {e : UtilEntry} :
    e ∈ get_utilization events emps tasks d ↔
      ∃ emp ∈ emps,
        annotateEmployee (get_events_for_date events d)
          ((get_available_employees events emps d).available.map (fun x => x.id))
          tasks emp = e := by
  simp only [get_utilization, List.mem_insertionSort, List.mem_map]

/-- C4: every entry `get_utilization` produces carries
`utilization_pct = min(100, round(active_task_count / max(max_tasks_per_day, 1) * 100))`,
which lies in `[0, 100]` however large the task count is, and
`free_capacity = max(0, max_tasks_per_day - active_task_count)`, which is
never negative; and every roster member gets exactly such an entry. -/
theorem claim_C4_utilization_bounds (events : List NormalizedEvent)
    (emps : List Employee) (tasks : List TaskRec) (d : PyDate) :
    (∀ e ∈ get_utilization events emps tasks d,
       e.utilization_pct =
         min 100 (pyRoundDiv (e.active_task_count * 100) (max e.emp.max_tasks_per_day 1)) ∧
       (0 : Int) ≤ (e.utilization_pct : Int) ∧ (e.utilization_pct : Int) ≤ 100 ∧
       (e.free_capacity : Int) =
         max 0 ((e.emp.max_tasks_per_day : Int) - (e.active_task_count : Int)) ∧
       (0 : Int) ≤ (e.free_capacity : Int)) ∧
    (∀ emp ∈ emps, ∃ e ∈ get_utilization events emps tasks d, e.emp = emp) := by
  constructor
  · intro e he
    obtain ⟨emp, _, rfl⟩ := mem_get_utilization.mp he
    refine ⟨rfl, by positivity, ?_, ?_, by positivity⟩
    · exact_mod_cast Nat.min_le_left 100 _
    · simp only [annotateEmployee]
      have h := (tasks.filter
        (fun t => decide (t.assigned_to_id = emp.id) && statusActiveB t)).length
      omega
  · intro emp hemp
    refine ⟨annotateEmployee (get_events_for_date events d)
      ((get_available_employees events emps d).available.map (fun x => x.id)) tasks emp,
      mem_get_utilization.mpr ⟨emp, hemp, rfl⟩, rfl⟩

/-- Witness for C4 at the sample scenario, instantiated at `sampleAlice`
(one active task of four slots: `utilization_pct = 25`, `free_capacity = 3`). -/
theorem claim_C4_witness :
    (∃ e ∈ get_utilization [sampleOofEvent] sampleRoster [sampleTask] sampleDate,
       e.emp = sampleAlice) ∧
    ((annotateEmployee (get_events_for_date [sampleOofEvent] sampleDate)
        ((get_available_employees [sampleOofEvent] sampleRoster sampleDate).available.map
          (fun x => x.id)) [sampleTask] sampleAlice).utilization_pct =
      min 100 (pyRoundDiv
        ((annotateEmployee (get_events_for_date [sampleOofEvent] sampleDate)
          ((get_available_employees [sampleOofEvent] sampleRoster sampleDate).available.map
            (fun x => x.id)) [sampleTask] sampleAlice).active_task_count * 100)
        (max (annotateEmployee (get_events_for_date [sampleOofEvent] sampleDate)
          ((get_available_employees [sampleOofEvent] sampleRoster sampleDate).available.map
            (fun x => x.id)) [sampleTask] sampleAlice).emp.max_tasks_per_day 1)) ∧
     (0 : Int) ≤ ((annotateEmployee (get_events_for_date [sampleOofEvent] sampleDate)
        ((get_available_employees [sampleOofEvent] sampleRoster sampleDate).available.map
          (fun x => x.id)) [sampleTask] sampleAlice).utilization_pct : Int) ∧
     ((annotateEmployee (get_events_for_date [sampleOofEvent] sampleDate)
        ((get_available_employees [sampleOofEvent] sampleRoster sampleDate).available.map
          (fun x => x.id)) [sampleTask] sampleAlice).utilization_pct : Int) ≤ 100 ∧
     ((annotateEmployee (get_events_for_date [sampleOofEvent] sampleDate)
        ((get_available_employees [sampleOofEvent] sampleRoster sampleDate).available.map
          (fun x => x.id)) [sampleTask] sampleAlice).free_capacity : Int) =
       max 0 (((annotateEmployee (get_events_for_date [sampleOofEvent] sampleDate)
        ((get_available_employees [sampleOofEvent] sampleRoster sampleDate).available.map
          (fun x => x.id)) [sampleTask] sampleAlice).emp.max_tasks_per_day : Int) -
        ((annotateEmployee (get_events_for_date [sampleOofEvent] sampleDate)
        ((get_available_employees [sampleOofEvent] sampleRoster sampleDate).available.map
          (fun x => x.id)) [sampleTask] sampleAlice).active_task_count : Int)) ∧
     (0 : Int) ≤ ((annotateEmployee (get_events_for_date [sampleOofEvent] sampleDate)
        ((get_available_employees [sampleOofEvent] sampleRoster sampleDate).available.map
          (fun x => x.id)) [sampleTask] sampleAlice).free_capacity : Int)) :=
  ⟨(claim_C4_utilization_bounds [sampleOofEvent] sampleRoster [sampleTask] sampleDate).2
    sampleAlice (by decide),
   (claim_C4_utilization_bounds [sampleOofEvent] sampleRoster [sampleTask] sampleDate).1
    _ (by decide)⟩

/-- C5: `execute_reassignment` with an unknown task id or assignee id fails
(the raised `ValueError`, named `NotFoundError` in the spec) before any mutation, so
the store keeps its prior content; on success it rewrites exactly the
`assigned_to_id`, stamps the reason and UTC timestamp, persists the mutated
store, and returns the audit record. -/
theorem claim_C5_commit_atomicity (db : Database) (tid aid reason : Str)
    (now : PyDateTime) :
    ((db.tasks.find? (fun t => decide (t.id = tid)) = none ∨
      db.employees.find? (fun e => decide (e.id = aid)) = none) →
       (∃ msg, execute_reassignment db tid aid reason now = .error msg) ∧
       storeAfterExecute db tid aid reason now = db) ∧
    (∀ (db2 : Database) (audit : AuditRecord),
       execute_reassignment db tid aid reason now = .ok (db2, audit) →
       db2.employees = db.employees ∧
       (∃ t, db.tasks.find? (fun t2 => decide (t2.id = tid)) = some t ∧
          db2.tasks = replaceFirst (fun t2 => decide (t2.id = tid))
            { t with assigned_to_id := aid, last_reassigned := some now,
                     reassignment_reason := some reason } db.tasks ∧
          audit.from_employee_id = t.assigned_to_id ∧ audit.task_title = t.title) ∧
       audit.task_id = tid ∧ audit.to_employee_id = aid ∧ audit.reason = reason ∧
       audit.executed_at = now ∧
       storeAfterExecute db tid aid reason now = db2) := by
  constructor
  · intro h
    cases hf : db.tasks.find? (fun t => decide (t.id = tid)) with
    | none =>
      refine ⟨⟨("Task not found in database".data), ?_⟩, ?_⟩ <;>
        simp [execute_reassignment, storeAfterExecute, hf]
    | some task =>
      cases hg : db.employees.find? (fun e => decide (e.id = aid)) with
      | none =>
        refine ⟨⟨("Employee ID not found in database".data), ?_⟩, ?_⟩ <;>
          simp [execute_reassignment, storeAfterExecute, hf, hg]
      | some emp =>
        rcases h with h | h
        · rw [hf] at h; exact absurd h (by simp)
        · rw [hg] at h; exact absurd h (by simp)
  · intro db2 audit hok
    cases hf : db.tasks.find? (fun t => decide (t.id = tid)) with
    | none => simp [execute_reassignment, hf] at hok
    | some task =>
      cases hg : db.employees.find? (fun e => decide (e.id = aid)) with
      | none => simp [execute_reassignment, hf, hg] at hok
      | some emp =>
        have hok2 := hok
        simp only [execute_reassignment, hf, hg, Except.ok.injEq, Prod.mk.injEq] at hok2
        obtain ⟨hdb, haud⟩ := hok2
        subst hdb
        subst haud
        refine ⟨rfl, ⟨task, rfl, rfl, rfl, rfl⟩, rfl, rfl, rfl, rfl, ?_⟩
        simp only [storeAfterExecute, execute_reassignment, hf, hg]

/-- Witness for C5: committing with the unknown task id `"NOPE"` on the sample
store errors and leaves the store unchanged; committing `"T1"` to `sampleBob`
succeeds with the expected mutation and audit record. -/
theorem claim_C5_witness :
    ((∃ msg, execute_reassignment sampleDb ("NOPE".data) ("2".data) ("reassign".data)
        ⟨2026, 3, 1, 12, 0, 0⟩ = .error msg) ∧
     storeAfterExecute sampleDb ("NOPE".data) ("2".data) ("reassign".data)
        ⟨2026, 3, 1, 12, 0, 0⟩ = sampleDb) ∧
    (sampleDbAfter.employees = sampleDb.employees ∧
     (∃ t, sampleDb.tasks.find? (fun t2 => decide (t2.id = ("T1".data))) = some t ∧
        sampleDbAfter.tasks = replaceFirst (fun t2 => decide (t2.id = ("T1".data)))
          { t with assigned_to_id := ("2".data),
                   last_reassigned := some ⟨2026, 3, 1, 12, 0, 0⟩,
                   reassignment_reason := some ("reassign".data) } sampleDb.tasks ∧
        sampleAudit.from_employee_id = t.assigned_to_id ∧
        sampleAudit.task_title = t.title) ∧
     sampleAudit.task_id = ("T1".data) ∧ sampleAudit.to_employee_id = ("2".data) ∧
     sampleAudit.reason = ("reassign".data) ∧
     sampleAudit.executed_at = ⟨2026, 3, 1, 12, 0, 0⟩ ∧
     storeAfterExecute sampleDb ("T1".data) ("2".data) ("reassign".data)
        ⟨2026, 3, 1, 12, 0, 0⟩ = sampleDbAfter) :=
  ⟨(claim_C5_commit_atomicity sampleDb ("NOPE".data) ("2".data) ("reassign".data)
      ⟨2026, 3, 1, 12, 0, 0⟩).1 (Or.inl (by decide)),
   (claim_C5_commit_atomicity sampleDb ("T1".data) ("2".data) ("reassign".data)
      ⟨2026, 3, 1, 12, 0, 0⟩).2 sampleDbAfter sampleAudit rfl⟩

lemma mem_suggestions {events : List NormalizedEvent} {emps : List Employee}
    {tasks : List TaskRec} {d : PyDate} {n : Nat} {s : Suggestion} :
    s ∈ (suggest_reassignments events emps tasks d n).suggestions ↔
      ∃ t ∈ tasks.filter statusActiveB,
        suggestionForTask (get_utilization events emps tasks d)
          ((get_utilization events emps tasks d).filter
            (fun e => e.is_available && decide (0 < e.free_capacity))) n t = s := by
  simp only [suggest_reassignments, List.mem_insertionSort, List.mem_map]

/-- C7: a recommendation list never contains the current assignee of the task and
never a candidate without free capacity; every recommended candidate is an
annotated roster member who is available on the target date (their id is in
the `available` list of the availability query) and has `free_capacity > 0`. -/
theorem claim_C7_candidate_pool (events : List NormalizedEvent)
    (emps : List Employee) (tasks : List TaskRec) (d : PyDate) (n : Nat) :
    ∀ s ∈ (suggest_reassignments events emps tasks d n).suggestions,
    ∀ c ∈ s.recommendations,
      c.entry.emp.id ≠ s.task.assigned_to_id ∧
      0 < c.entry.free_capacity ∧
      c.entry.is_available = true ∧
      c.entry.emp ∈ emps ∧
      c.entry.emp.id ∈ (get_available_employees events emps d).available.map
        (fun x => x.id) := by
  intro s hs c hc
  obtain ⟨t, ht, hst⟩ := mem_suggestions.mp hs
  subst hst
  by_cases hu : isUnavailableId (get_utilization events emps tasks d) t.assigned_to_id
  · simp only [suggestionForTask, hu, Bool.not_true, Bool.false_eq_true, if_false] at hc ⊢
    have hc2 : c ∈ candidatesForTask
        ((get_utilization events emps tasks d).filter
          (fun e => e.is_available && decide (0 < e.free_capacity)))
        t.assigned_to_id t :=
      (List.mem_insertionSort _).mp (List.mem_of_mem_take hc)
    simp only [candidatesForTask, List.mem_map, List.mem_filter] at hc2
    obtain ⟨u, ⟨⟨hupool, hcond⟩, huid⟩, rfl⟩ := hc2
    simp only [Bool.and_eq_true, decide_eq_true_eq] at hcond
    obtain ⟨huavail, hufree⟩ := hcond
    have hune : u.emp.id ≠ t.assigned_to_id := by
      simpa using huid
    obtain ⟨emp, hemp, hanno⟩ := mem_get_utilization.mp hupool
    refine ⟨hune, hufree, huavail, ?_, ?_⟩
    · rw [← hanno]
      exact hemp
    · have hid : u.emp.id = emp.id := by rw [← hanno]; rfl
      have hav : u.is_available =
          decide (emp.id ∈ (get_available_employees events emps d).available.map
            (fun x => x.id)) := by
        rw [← hanno]; rfl
    
      rw [hid]
      rw [hav] at huavail
      simpa using huavail
  · simp only [suggestionForTask, hu, Bool.not_false, if_true] at hc
    simp at hc

/-- Witness for C7: in the sample scenario the single recommendation is
`sampleBob` — not the assignee, available, with free capacity. -/
theorem claim_C7_witness :
    sampleCandidate.entry.emp.id ≠ sampleSuggestion.task.assigned_to_id ∧
    0 < sampleCandidate.entry.free_capacity ∧
    sampleCandidate.entry.is_available = true ∧
    sampleCandidate.entry.emp ∈ sampleRoster ∧
    sampleCandidate.entry.emp.id ∈
      (get_available_employees [sampleOofEvent] sampleRoster sampleDate).available.map
        (fun x => x.id) :=
  claim_C7_candidate_pool [sampleOofEvent] sampleRoster [sampleTask] sampleDate 3
    sampleSuggestion (by decide) sampleCandidate (by decide)

lemma candLeP_imp_rank {a b : CandidateRec} (h : candLeP a b) : candRankRel a b := by
  simp only [candLeP, candLe, decide_eq_true_eq] at h
  simp only [candRankRel]
  omega

/-- C3: for a task whose assignee is unavailable, every recommended
score of each candidate is `skill_match_count * 15 - utilization_pct -
calendar_event_count * 3` with `skill_match_count` the size of the
required/held skill intersection, and the recommendation list is the first
`top_n` of the candidate pool ordered by score descending, ties broken by
more free capacity; every active task with an unavailable assignee gets such
a suggestion; and the spec scenario (1 matching skill, utilization 25, one
calendar event) scores −13. -/
theorem claim_C3_scoring :
    (∀ (events : List NormalizedEvent) (emps : List Employee) (tasks : List TaskRec)
       (d : PyDate) (n : Nat),
       ∀ s ∈ (suggest_reassignments events emps tasks d n).suggestions,
       s.needs_reassignment = true →
       (∀ c ∈ s.recommendations,
          c.score = (skillInterCount s.task.required_skills c.entry.emp.skills : Int) * 15 -
            (c.entry.utilization_pct : Int) - (c.entry.calendar_event_count : Int) * 3 ∧
          c.skill_match_count = skillInterCount s.task.required_skills c.entry.emp.skills) ∧
       (∃ full : List CandidateRec,
          full.Perm (candidatesForTask
            ((get_utilization events emps tasks d).filter
              (fun e => e.is_available && decide (0 < e.free_capacity)))
            s.task.assigned_to_id s.task) ∧
          List.Pairwise candRankRel full ∧
          s.recommendations = full.take n)) ∧
    (∀ (events : List NormalizedEvent) (emps : List Employee) (tasks : List TaskRec)
       (d : PyDate) (n : Nat), ∀ t ∈ tasks, statusActiveB t = true →
       isUnavailableId (get_utilization events emps tasks d) t.assigned_to_id = true →
       ∃ s ∈ (suggest_reassignments events emps tasks d n).suggestions,
         s.task = t ∧ s.needs_reassignment = true) ∧
    score_candidate c3ScenarioEntry sampleTask = -13 := by
  refine ⟨?_, ?_, by decide⟩
  · intro events emps tasks d n s hs hneeds
    obtain ⟨t, ht, hst⟩ := mem_suggestions.mp hs
    subst hst
    by_cases hu : isUnavailableId (get_utilization events emps tasks d)
        t.assigned_to_id = true
    · simp only [suggestionForTask, hu, Bool.not_true, Bool.false_eq_true, if_false]
      constructor
      · intro c hc
        have hc2 : c ∈ candidatesForTask
            ((get_utilization events emps tasks d).filter
              (fun e => e.is_available && decide (0 < e.free_capacity)))
            t.assigned_to_id t := by
          have hc3 : c ∈ (List.insertionSort candLeP (candidatesForTask
              ((get_utilization events emps tasks d).filter
                (fun e => e.is_available && decide (0 < e.free_capacity)))
              t.assigned_to_id t)).take n := by
            simpa [suggestionForTask, hu] using hc
          exact (List.mem_insertionSort candLeP).mp (List.mem_of_mem_take hc3)
        simp only [candidatesForTask, List.mem_map] at hc2
        obtain ⟨u, hu2, rfl⟩ := hc2
        exact ⟨rfl, rfl⟩
      · refine ⟨List.insertionSort candLeP (candidatesForTask
            ((get_utilization events emps tasks d).filter
              (fun e => e.is_available && decide (0 < e.free_capacity)))
            t.assigned_to_id t),
          List.perm_insertionSort candLeP _,
          (List.sorted_insertionSort candLeP _).imp (fun h => candLeP_imp_rank h),
          rfl⟩
    · simp only [Bool.not_eq_true] at hu
      simp [suggestionForTask, hu] at hneeds
  · intro events emps tasks d n t ht hact hun
    refine ⟨suggestionForTask (get_utilization events emps tasks d)
        ((get_utilization events emps tasks d).filter
          (fun e => e.is_available && decide (0 < e.free_capacity))) n t,
      mem_suggestions.mpr ⟨t, List.mem_filter.mpr ⟨ht, hact⟩, rfl⟩, ?_, ?_⟩
    · simp only [suggestionForTask]
      split <;> rfl
    · simp [suggestionForTask, hun]

/-- Witness for C3: the single recommendation of the sample scenario (`sampleBob`)
carries score `1 * 15 - 0 - 0 = 15` per the formula, and the recommendation
list is the sorted candidate pool truncated to `top_n = 3`. -/
theorem claim_C3_witness :
    (sampleCandidate.score =
       (skillInterCount sampleSuggestion.task.required_skills
         sampleCandidate.entry.emp.skills : Int) * 15 -
       (sampleCandidate.entry.utilization_pct : Int) -
       (sampleCandidate.entry.calendar_event_count : Int) * 3 ∧
     sampleCandidate.skill_match_count =
       skillInterCount sampleSuggestion.task.required_skills
         sampleCandidate.entry.emp.skills) ∧
    (∃ full : List CandidateRec,
       full.Perm (candidatesForTask
         ((get_utilization [sampleOofEvent] sampleRoster [sampleTask] sampleDate).filter
           (fun e => e.is_available && decide (0 < e.free_capacity)))
         sampleSuggestion.task.assigned_to_id sampleSuggestion.task) ∧
       List.Pairwise candRankRel full ∧
       sampleSuggestion.recommendations = full.take 3) :=
  ⟨(claim_C3_scoring.1 [sampleOofEvent] sampleRoster [sampleTask] sampleDate 3
      sampleSuggestion (by decide) (by decide)).1 sampleCandidate (by decide),
   (claim_C3_scoring.1 [sampleOofEvent] sampleRoster [sampleTask] sampleDate 3
      sampleSuggestion (by decide) (by decide)).2⟩

lemma digitVal_digitChar (n : Nat) (h : n ≤ 9) : digitVal (digitChar n) = some n := by
  interval_cases n <;> decide

lemma digitChar_not_ws (n : Nat) (h : n ≤ 9) : (digitChar n).isWhitespace = false := by
  interval_cases n <;> decide

lemma digitChar_ne_dash (n : Nat) (h : n ≤ 9) : ¬(digitChar n = '-') := by
  interval_cases n <;> decide

lemma digitChar_ne_plus (n : Nat) (h : n ≤ 9) : ¬(digitChar n = '+') := by
  interval_cases n <;> decide

lemma pyStrip_two (a b : Nat) (ha : a ≤ 9) (hb : b ≤ 9) :
    pyStrip [digitChar a, digitChar b] = [digitChar a, digitChar b] := by
  simp [pyStrip, List.dropWhile_cons, digitChar_not_ws a ha, digitChar_not_ws b hb]

lemma pyStrip_four (a b c e : Nat) (ha : a ≤ 9) (he : e ≤ 9) :
    pyStrip [digitChar a, digitChar b, digitChar c, digitChar e] =
      [digitChar a, digitChar b, digitChar c, digitChar e] := by
  simp [pyStrip, List.dropWhile_cons, digitChar_not_ws a ha, digitChar_not_ws e he]

lemma digitsToNat_two (a b : Nat) (ha : a ≤ 9) (hb : b ≤ 9) :
    digitsToNat [digitChar a, digitChar b] = some (a * 10 + b) := by
  simp [digitsToNat, List.foldl, digitVal_digitChar a ha, digitVal_digitChar b hb]

lemma digitsToNat_four (a b c e : Nat) (ha : a ≤ 9) (hb : b ≤ 9) (hc : c ≤ 9)
    (he : e ≤ 9) :
    digitsToNat [digitChar a, digitChar b, digitChar c, digitChar e] =
      some (((a * 10 + b) * 10 + c) * 10 + e) := by
  simp [digitsToNat, List.foldl, digitVal_digitChar a ha, digitVal_digitChar b hb,
    digitVal_digitChar c hc, digitVal_digitChar e he]

lemma pyInt_two (a b : Nat) (ha : a ≤ 9) (hb : b ≤ 9) :
    pyInt [digitChar a, digitChar b] = some ((a * 10 + b : Nat) : Int) := by
  rw [pyInt, pyStrip_two a b ha hb]
  simp [digitChar_ne_dash a ha, digitChar_ne_plus a ha, digitsToNat_two a b ha hb]

lemma pyInt_four (a b c e : Nat) (ha : a ≤ 9) (hb : b ≤ 9) (hc : c ≤ 9) (he : e ≤ 9) :
    pyInt [digitChar a, digitChar b, digitChar c, digitChar e] =
      some ((((a * 10 + b) * 10 + c) * 10 + e : Nat) : Int) := by
  rw [pyInt, pyStrip_four a b c e ha he]
  simp [digitChar_ne_dash a ha, digitChar_ne_plus a ha,
    digitsToNat_four a b c e ha hb hc he]

lemma daysInMonth_le (y m : Int) : daysInMonth y m ≤ 31 := by
  unfold daysInMonth
  split
  · split <;> omega
  · split <;> omega

/-- C9: any 10-character `YYYY-MM-DD` input (four-digit year, valid calendar
date) parses to midnight UTC on that date, whatever named-timezone hint is
supplied — the hint is never applied to date-only values. -/
theorem claim_C9_date_only (y m d : Nat) (hint : Option Str)
    (hy1 : 1000 ≤ y) (hy2 : y ≤ 9999) (hm1 : 1 ≤ m) (hm2 : m ≤ 12)
    (hd1 : 1 ≤ d) (hd2 : (d : Int) ≤ daysInMonth (y : Int) (m : Int)) :
    parse_dt_to_utc (renderYmd y m d) hint =
      some ⟨(y : Int), (m : Int), (d : Int), 0, 0, 0⟩ := by
  have hd31 : d ≤ 31 := by
    have h31 := daysInMonth_le (y : Int) (m : Int)
    omega
  have ha : y / 1000 ≤ 9 := by omega
  have hb : y / 100 % 10 ≤ 9 := by omega
  have hc : y / 10 % 10 ≤ 9 := by omega
  have he : y % 10 ≤ 9 := by omega
  have hma : m / 10 ≤ 9 := by omega
  have hmb : m % 10 ≤ 9 := by omega
  have hda : d / 10 ≤ 9 := by omega
  have hdb : d % 10 ≤ 9 := by omega
  have hstrip : pyStrip (renderYmd y m d) = renderYmd y m d := by
    simp [pyStrip, renderYmd, List.dropWhile_cons, digitChar_not_ws _ ha,
      digitChar_not_ws _ hdb]
  have hlen : (renderYmd y m d).length = 10 := by simp [renderYmd]
  have ht4 : (renderYmd y m d).take 4 =
      [digitChar (y / 1000), digitChar (y / 100 % 10), digitChar (y / 10 % 10),
       digitChar (y % 10)] := rfl
  have ht5 : ((renderYmd y m d).drop 5).take 2 =
      [digitChar (m / 10), digitChar (m % 10)] := rfl
  have ht8 : ((renderYmd y m d).drop 8).take 2 =
      [digitChar (d / 10), digitChar (d % 10)] := rfl
  simp only [parse_dt_to_utc]
  rw [hstrip, if_pos hlen, ht4, ht5, ht8,
    pyInt_four _ _ _ _ ha hb hc he, pyInt_two _ _ hma hmb, pyInt_two _ _ hda hdb]
  have hyv : ((y / 1000 * 10 + y / 100 % 10) * 10 + y / 10 % 10) * 10 + y % 10 = y := by
    omega
  have hmv : m / 10 * 10 + m % 10 = m := by omega
  have hdv : d / 10 * 10 + d % 10 = d := by omega
  rw [hyv, hmv, hdv]
  show mkDatetime (y : Int) (m : Int) (d : Int) 0 0 0 = _
  have hvalid : (validDate (y : Int) (m : Int) (d : Int) &&
      validTime 0 0 0) = true := by
    have hvt : validTime 0 0 0 = true := by decide
    rw [hvt, Bool.and_true]
    simp only [validDate, Bool.and_eq_true, decide_eq_true_eq]
    revert hd2
    generalize daysInMonth (y : Int) (m : Int) = k
    intro hd2
    omega
  rw [mkDatetime, if_pos hvalid]

/-- Witness for C9: `"2026-03-01"` with an Eastern-time hint still parses to
midnight UTC of 2026-03-01. -/
theorem claim_C9_witness :
    1000 ≤ 2026 ∧ (1 : Int) ≤ daysInMonth 2026 3 ∧
    parse_dt_to_utc (renderYmd 2026 3 1) (some ("Eastern Standard Time".data)) =
      some ⟨2026, 3, 1, 0, 0, 0⟩ :=
  ⟨by omega, by decide,
   claim_C9_date_only 2026 3 1 (some ("Eastern Standard Time".data))
     (by omega) (by omega) (by omega) (by omega) (by omega) (by decide)⟩

/-- Witness for C2 at concrete inputs: the filter characterization evaluated
on the sample events and the availability insensitivity on the sample
scenario. -/
theorem claim_C2_witness :
    get_events_for_date [allDayMarEvent, timedMarEvent] ⟨2026, 3, 2⟩ =
      [allDayMarEvent, timedMarEvent].filter (fun ev => specOverlaps ev ⟨2026, 3, 2⟩) ∧
    get_available_employees [sampleOofEvent] sampleRoster sampleDate =
      get_available_employees
        ([sampleOofEvent].filter (fun ev => specOverlaps ev sampleDate))
        sampleRoster sampleDate :=
  ⟨claim_C2_overlap_rule.1 [allDayMarEvent, timedMarEvent] ⟨2026, 3, 2⟩,
   claim_C2_overlap_rule.2.1 [sampleOofEvent] sampleRoster sampleDate⟩

/-- Witness for C8 at concrete inputs: an itemless Google event (no start) is
excluded exactly per the characterization, and the normalizer is the
filter-map on a concrete list. -/
theorem claim_C8_witness :
    normalize_google_json [c1MissingEndItem] =
      [c1MissingEndItem].filterMap googleItemToEvent ∧
    (googleItemToEvent ({} : GoogleItem) = none ↔
      (googleStartStr ({} : GoogleItem) = [] ∨
       parse_dt_to_utc (googleStartStr ({} : GoogleItem))
         (googleTzHint ({} : GoogleItem)) = none ∨
       (googleEndStr ({} : GoogleItem) ≠ [] ∧
        parse_dt_to_utc (googleEndStr ({} : GoogleItem))
          (googleTzHint ({} : GoogleItem)) = none))) :=
  ⟨claim_C8_silent_exclusion.1 [c1MissingEndItem],
   claim_C8_silent_exclusion.2.1 ({} : GoogleItem)⟩
